import Mathlib

/-!
Verification development for the Recall chat-memory core (`main.py`).

The embedding models the three functions of the core module — `chat_with_memory`,
`generate_text` and `load_memory` — together with the pieces of their environment
they interact with: the JSON text codec used by `json.dump(..., ensure_ascii=False,
indent=2)` and `json.load`, the per-session record file, and the HTTP generation
endpoint.  File contents are plain strings; the network and the write outcome are
explicit parameters.
-/

namespace Recall

/-! ## JSON values

`Json` models the values produced by Python's `json.loads`: `null`, booleans,
integers, strings, arrays and objects.  (Floats do not occur in any record this
program writes and are not modelled.) -/

inductive Json where
  | null
  | bool (b : Bool)
  | num (n : Int)
  | str (s : String)
  | arr (elems : List Json)
  | obj (fields : List (String × Json))
deriving Repr, Inhabited

/-- Dictionary access `d[key]` on a parsed object: `json.loads` keeps the last
of duplicate keys, so the last matching field wins. -/
def jLookup (fields : List (String × Json)) (key : String) : Option Json :=
  match fields with
  | [] => none
  | (k, v) :: rest =>
    match jLookup rest key with
    | some r => some r
    | none => if k = key then some v else none

/-! ## Serialization: `json.dump(v, f, ensure_ascii=False, indent=2)` -/

/-- Lowercase hex digit, as emitted by Python's `\uXXXX` escapes. -/
def hexDigitChar (n : Nat) : Char :=
  if n < 10 then Char.ofNat (48 + n) else Char.ofNat (87 + n)

/-- How `json.dump` with `ensure_ascii=False` renders one string character:
`"`, `\`, and the named control characters get two-character escapes, other
control characters get `\u00XX`, everything else (including non-ASCII) is
emitted raw. -/
def escCharJson (c : Char) : List Char :=
  if c = '"' then ['\\', '"']
  else if c = '\\' then ['\\', '\\']
  else if c = '\x08' then ['\\', 'b']
  else if c = '\x0c' then ['\\', 'f']
  else if c = '\n' then ['\\', 'n']
  else if c = '\r' then ['\\', 'r']
  else if c = '\t' then ['\\', 't']
  else if c.toNat < 32 then
    ['\\', 'u', '0', '0', hexDigitChar (c.toNat / 16), hexDigitChar (c.toNat % 16)]
  else [c]

def escBody (cs : List Char) : List Char := cs.flatMap escCharJson

/-- `indent=2`: each nesting level indents by two spaces. -/
def indentChars (lvl : Nat) : List Char := List.replicate (2 * lvl) ' '

mutual
/-- The exact character stream `json.dump(v, f, ensure_ascii=False, indent=2)`
writes for `v` at nesting level `lvl`. -/
def dumpChars : Nat → Json → List Char
  | _, .null => ['n', 'u', 'l', 'l']
  | _, .bool true => ['t', 'r', 'u', 'e']
  | _, .bool false => ['f', 'a', 'l', 's', 'e']
  | _, .num n => (toString n).data
  | _, .str s => '"' :: (escBody s.data ++ ['"'])
  | _, .arr [] => ['[', ']']
  | lvl, .arr (x :: xs) =>
    '[' :: '\n' :: (indentChars (lvl + 1) ++ dumpChars (lvl + 1) x ++ dumpTail (lvl + 1) xs
      ++ '\n' :: (indentChars lvl ++ [']']))
  | _, .obj [] => ['{', '}']
  | lvl, .obj (kv :: kvs) =>
    '{' :: '\n' :: (indentChars (lvl + 1) ++ dumpField (lvl + 1) kv ++ dumpFieldTail (lvl + 1) kvs
      ++ '\n' :: (indentChars lvl ++ ['}']))

def dumpTail : Nat → List Json → List Char
  | _, [] => []
  | lvl, x :: xs => ',' :: '\n' :: (indentChars lvl ++ dumpChars lvl x ++ dumpTail lvl xs)

def dumpField : Nat → String × Json → List Char
  | lvl, (k, v) => '"' :: (escBody k.data ++ '"' :: ':' :: ' ' :: dumpChars lvl v)

def dumpFieldTail : Nat → List (String × Json) → List Char
  | _, [] => []
  | lvl, kv :: kvs => ',' :: '\n' :: (indentChars lvl ++ dumpField lvl kv ++ dumpFieldTail lvl kvs)
end

/-- The full text `json.dump(v, f, ensure_ascii=False, indent=2)` writes. -/
def dumps (v : Json) : String := String.mk (dumpChars 0 v)

/-! ## Parsing: `json.load` -/

def isWsChar (c : Char) : Bool := c = ' ' || c = '\t' || c = '\n' || c = '\r'

def skipWs : List Char → List Char
  | [] => []
  | c :: cs => if isWsChar c then skipWs cs else c :: cs

def hexVal (c : Char) : Option Nat :=
  if '0' ≤ c && c ≤ '9' then some (c.toNat - 48)
  else if 'a' ≤ c && c ≤ 'f' then some (c.toNat - 87)
  else if 'A' ≤ c && c ≤ 'F' then some (c.toNat - 55)
  else none

def unescape (e : Char) : Option Char :=
  if e = '"' then some '"'
  else if e = '\\' then some '\\'
  else if e = '/' then some '/'
  else if e = 'b' then some '\x08'
  else if e = 'f' then some '\x0c'
  else if e = 'n' then some '\n'
  else if e = 'r' then some '\r'
  else if e = 't' then some '\t'
  else none

/-- Parse a string body (after the opening quote) up to the closing quote.
Strict mode, like Python: raw control characters are rejected. -/
def parseStrBody (fuel : Nat) (cs : List Char) : Option (List Char × List Char) :=
  match fuel with
  | 0 => none
  | fuel + 1 =>
    match cs with
    | [] => none
    | c :: cs' =>
      if c = '"' then some ([], cs')
      else if c = '\\' then
        match cs' with
        | [] => none
        | e :: cs'' =>
          if e = 'u' then
            match cs'' with
            | h1 :: h2 :: h3 :: h4 :: cs3 =>
              match hexVal h1, hexVal h2, hexVal h3, hexVal h4 with
              | some a, some b, some c2, some d =>
                (parseStrBody fuel cs3).map
                  (fun p => (Char.ofNat (a * 4096 + b * 256 + c2 * 16 + d) :: p.1, p.2))
              | _, _, _, _ => none
            | _ => none
          else
            match unescape e with
            | some d => (parseStrBody fuel cs'').map (fun p => (d :: p.1, p.2))
            | none => none
      else if c.toNat < 32 then none
      else (parseStrBody fuel cs').map (fun p => (c :: p.1, p.2))

def isDigitChar (c : Char) : Bool := '0' ≤ c && c ≤ '9'

def digitsToNat (ds : List Char) : Nat :=
  ds.foldl (fun acc c => acc * 10 + (c.toNat - 48)) 0

def parseNum (cs : List Char) : Option (Json × List Char) :=
  match cs with
  | '-' :: cs' =>
    let ds := cs'.takeWhile isDigitChar
    if ds.isEmpty then none
    else some (.num (-(digitsToNat ds : Int)), cs'.dropWhile isDigitChar)
  | _ =>
    let ds := cs.takeWhile isDigitChar
    if ds.isEmpty then none
    else some (.num (digitsToNat ds), cs.dropWhile isDigitChar)

mutual
/-- Recursive-descent JSON value parser; returns the value and the unconsumed
suffix.  `fuel` bounds the recursion depth. -/
def parseVal : Nat → List Char → Option (Json × List Char)
  | 0, _ => none
  | fuel + 1, cs =>
    match skipWs cs with
    | [] => none
    | c :: cs' =>
      if c = '"' then
        (parseStrBody (cs'.length + 1) cs').map (fun p => (.str (String.mk p.1), p.2))
      else if c = '[' then
        match skipWs cs' with
        | ']' :: rest => some (.arr [], rest)
        | _ => (parseElems fuel cs').map (fun p => (.arr p.1, p.2))
      else if c = '{' then
        match skipWs cs' with
        | '}' :: rest => some (.obj [], rest)
        | _ => (parseFields fuel cs').map (fun p => (.obj p.1, p.2))
      else
        match c :: cs' with
        | 'n' :: 'u' :: 'l' :: 'l' :: rest => some (.null, rest)
        | 't' :: 'r' :: 'u' :: 'e' :: rest => some (.bool true, rest)
        | 'f' :: 'a' :: 'l' :: 's' :: 'e' :: rest => some (.bool false, rest)
        | cs2 => parseNum cs2

/-- Parse the elements of a non-empty array, including the closing bracket. -/
def parseElems : Nat → List Char → Option (List Json × List Char)
  | 0, _ => none
  | fuel + 1, cs =>
    match parseVal fuel cs with
    | none => none
    | some (v, rest) =>
      match skipWs rest with
      | ',' :: rest' => (parseElems fuel rest').map (fun p => (v :: p.1, p.2))
      | ']' :: rest' => some ([v], rest')
      | _ => none

/-- Parse the fields of a non-empty object, including the closing brace. -/
def parseFields : Nat → List Char → Option (List (String × Json) × List Char)
  | 0, _ => none
  | fuel + 1, cs =>
    match skipWs cs with
    | '"' :: cs' =>
      match parseStrBody (cs'.length + 1) cs' with
      | none => none
      | some (k, rest) =>
        match skipWs rest with
        | ':' :: rest' =>
          match parseVal fuel rest' with
          | none => none
          | some (v, rest2) =>
            match skipWs rest2 with
            | ',' :: rest3 => (parseFields fuel rest3).map (fun p => ((String.mk k, v) :: p.1, p.2))
            | '}' :: rest3 => some ([(String.mk k, v)], rest3)
            | _ => none
        | _ => none
    | _ => none
end

/-- `json.load`: parse a whole document; trailing content other than whitespace
is an error. -/
def jsonParse (s : String) : Option Json :=
  match parseVal (s.length + 1) s.data with
  | none => none
  | some (v, rest) => if skipWs rest = [] then some v else none

/-! ## Python value rendering

`str()` / `repr()` of parsed-JSON values, as used by the f-string
`f"{m['role'].capitalize()}: {m['content']}"`. -/

def pyReprEsc (q : Char) (c : Char) : List Char :=
  if c = '\\' then ['\\', '\\']
  else if c = q then ['\\', q]
  else if c = '\n' then ['\\', 'n']
  else if c = '\r' then ['\\', 'r']
  else if c = '\t' then ['\\', 't']
  else if c.toNat < 32 then ['\\', 'x', hexDigitChar (c.toNat / 16), hexDigitChar (c.toNat % 16)]
  else [c]

def pyReprString (s : String) : String :=
  let q := if s.contains (Char.ofNat 39) && !(s.contains '"') then '"' else Char.ofNat 39
  String.mk (q :: (s.data.flatMap (pyReprEsc q) ++ [q]))

mutual
def pyReprJson : Json → String
  | .null => "None"
  | .bool true => "True"
  | .bool false => "False"
  | .num n => toString n
  | .str s => pyReprString s
  | .arr xs => "[" ++ String.intercalate ", " (pyReprList xs) ++ "]"
  | .obj kvs => "\x7b" ++ String.intercalate ", " (pyReprFields kvs) ++ "\x7d"

def pyReprList : List Json → List String
  | [] => []
  | x :: xs => pyReprJson x :: pyReprList xs

def pyReprFields : List (String × Json) → List String
  | [] => []
  | (k, v) :: kvs => (pyReprString k ++ ": " ++ pyReprJson v) :: pyReprFields kvs
end

/-- Python `str()` of a parsed-JSON value, as interpolated by an f-string. -/
def pyStrJson : Json → String
  | .str s => s
  | v => pyReprJson v

/-- Prefix test on character lists. -/
def isLeadOf : List Char → List Char → Bool
  | [], _ => true
  | _ :: _, [] => false
  | a :: as, b :: bs => a == b && isLeadOf as bs

/-- Python `s.startswith(pre)`. -/
def pyStartsWith (s pre : String) : Bool := isLeadOf pre.data s.data

/-- Python `str.capitalize()`: first character uppercased, the rest lowercased. -/
def pyCapitalize (s : String) : String :=
  match s.data with
  | [] => ""
  | c :: cs => String.mk (c.toUpper :: cs.map Char.toLower)

/-! ## The data model: messages and transcripts -/

structure Message where
  role : String
  content : String
deriving Repr, DecidableEq

/-- The dict literal the orchestrator builds for a message, with its insertion
order of keys. -/
def msgJson (m : Message) : Json :=
  .obj [("role", .str m.role), ("content", .str m.content)]

def encodeTranscript (T : List Message) : Json := .arr (T.map msgJson)

def keyRole : String := "role"
def keyContent : String := "content"
def keyResponse : String := "response"
def roleUser : String := "user"
def roleSystem : String := "system"
def roleAssistant : String := "assistant"
def httpErrTag : String := "HTTP Error:"
def requestErrTag : String := "Request Error:"
def unexpectedErrTag : String := "Unexpected Error:"
def lineSep : String := "\n"
def assistantTag : String := "\nAssistant:"
def summaryPre : String :=
  "Summarize the following conversation in a few sentences to preserve context:\n"
def summaryPost : String := "\nSummary:"

/-- One line of the transcript rendering
`f"{m['role'].capitalize()}: {m['content']}"` (lines 33 and 43 of `main.py`):
`none` models the uncaught exception raised when `m` is not a dict, a key is
missing, or the role value has no `capitalize` method. -/
def formatLine (m : Json) : Option String :=
  match m with
  | .obj fields =>
    match jLookup fields keyRole, jLookup fields keyContent with
    | some (.str r), some c => some (pyCapitalize r ++ ": " ++ pyStrJson c)
    | _, _ => none
  | _ => none

/-- Python slice `xs[-k:]`; `-0` means index `0`, so `k = 0` yields the whole
list. -/
def pyTakeLast {α : Type} (k : Nat) (xs : List α) : List α :=
  if k = 0 then xs else xs.drop (xs.length - k)

/-- Python slice `xs[:-k]`; `-0` means index `0`, so `k = 0` yields the empty
list. -/
def pyDropLast {α : Type} (k : Nat) (xs : List α) : List α :=
  if k = 0 then [] else xs.take (xs.length - k)

/-! ## Persistence store -/

/-- The directory the program runs in: file name ↦ contents, if the file
exists. -/
def Disk : Type := String → Option String

def memFile (session : String) : String := "memory_" ++ session ++ ".json"

/-- `load_memory(session)` (lines 87–111): missing file, unparseable content and
non-list content all degrade to the empty list; a well-formed JSON list is
returned as parsed, with no validation of its elements. -/
def load_memory (disk : Disk) (session : String) : List Json :=
  match disk (memFile session) with
  | none => []
  | some text =>
    match jsonParse text with
    | none => []
    | some (.arr elems) => elems
    | some _ => []

inductive SaveOutcome where
  | success
  | openFail
  | writeFail (written : Nat)

/-- The write at lines 54–58: `open(MEMORY_FILE, "w")` truncates (or creates)
the record, then `json.dump` writes the serialization.  `openFail` models
`open` itself raising, with nothing touched; `writeFail k` models a failure
after opening, with `k` characters flushed; the `except` arm only prints, so no
outcome escapes the call. -/
def save_memory (disk : Disk) (session : String) (memory : List Json) :
    SaveOutcome → Disk
  | .success => fun p =>
      if p = memFile session then some (dumps (.arr memory)) else disk p
  | .openFail => disk
  | .writeFail k => fun p =>
      if p = memFile session then some ((dumps (.arr memory)).take k) else disk p

/-! ## Text generation client -/

/-- Outcome of the single `requests.post` to the generation endpoint: a 2xx
response with body text, a non-2xx response (`raise_for_status` raises an
HTTPError rendering as `detail`, and `r.text` is `body`), or a
RequestException rendering as `detail`. -/
inductive NetResult where
  | ok (body : String)
  | httpFail (detail : String) (body : String)
  | transportFail (detail : String)

/-- The generation endpoint as seen by the client: prompt and model determine
the outcome of the request. -/
def Net : Type := String → String → NetResult

def pyTypeName : Json → String
  | .null => "NoneType"
  | .bool _ => "bool"
  | .num _ => "int"
  | .str _ => "str"
  | .arr _ => "list"
  | .obj _ => "dict"

/-- `str(e)` for the AttributeError raised by `data.get` when `data` is not a
dict. -/
def attrErrDetail (v : Json) : String :=
  "object of type " ++ pyTypeName v ++ " has no attribute get"

/-- `str(e)` for the JSONDecodeError raised by `r.json()` on an unparseable
body. -/
def decodeErrDetail (_body : String) : String :=
  "Expecting value: line 1 column 1 (char 0)"

/-- `generate_text(prompt, model)` (lines 62–85).  Since requests 2.27 the
JSONDecodeError raised by `r.json()` subclasses RequestException, so an
unparseable 2xx body is caught by the `except requests.RequestException` arm;
`except Exception` catches the AttributeError from `data.get` when the body is
valid JSON but not an object. -/
def generate_text (net : Net) (prompt : String) (model : String) : String :=
  match net prompt model with
  | .transportFail detail => "Request Error: " ++ detail
  | .httpFail detail body => "HTTP Error: " ++ detail ++ ", " ++ body
  | .ok body =>
    match jsonParse body with
    | none => "Request Error: " ++ decodeErrDetail body
    | some (.obj fields) =>
      match jLookup fields keyResponse with
      | some (.str s) => s
      -- the source returns this non-string value as-is; rendered as text here
      -- to keep the declared string return type
      | some v => pyStrJson v
      | none => ""
    | some v => "Unexpected Error: " ++ attrErrDetail v

/-! ## Conversation orchestrator -/

/-- `assistant_reply.startswith(("HTTP Error:", "Request Error:", "Unexpected Error:"))`. -/
def isErrorReply (r : String) : Bool :=
  pyStartsWith r httpErrTag || pyStartsWith r requestErrTag || pyStartsWith r unexpectedErrTag

/-- Lines 31–36: if the post-append transcript is longer than the threshold,
render the old prefix, ask the model for a summary, and collapse; `none` models
the uncaught exception from rendering a non-message element. -/
def summarize_step (net : Net) (model : String) (memory : List Json)
    (max_history summary_threshold : Nat) : Option (List Json) :=
  if memory.length > summary_threshold then
    match (pyDropLast max_history memory).mapM formatLine with
    | none => none
    | some lines =>
      let old_text := String.intercalate lineSep lines
      let summary := generate_text net (summaryPre ++ old_text ++ summaryPost) model
      some (msgJson { role := roleSystem, content := summary }
        :: pyTakeLast max_history memory)
  else some memory

/-- Lines 39–41: the context window, optionally led by the agent directive. -/
def context_step (memory : List Json) (max_history : Nat) (agent_prompt : String) :
    List Json :=
  let context_messages := pyTakeLast max_history memory
  if agent_prompt ≠ "" then
    msgJson { role := roleSystem, content := agent_prompt } :: context_messages
  else context_messages

/-- `chat_with_memory(user_input, session, model, max_history,
summary_threshold, agent_prompt)` (lines 7–60).  The result is the returned
reply together with the directory state after the turn; `none` models an
uncaught exception. -/
def chat_with_memory (net : Net) (saveOut : SaveOutcome) (disk : Disk)
    (user_input session model : String) (max_history summary_threshold : Nat)
    (agent_prompt : String) : Option (String × Disk) :=
  let memory := load_memory disk session
  let memory := memory ++ [msgJson { role := roleUser, content := user_input }]
  match summarize_step net model memory max_history summary_threshold with
  | none => none
  | some memory =>
    match (context_step memory max_history agent_prompt).mapM formatLine with
    | none => none
    | some lines =>
      let context := String.intercalate lineSep lines ++ assistantTag
      let assistant_reply := generate_text net context model
      if assistant_reply = "" ∨ isErrorReply assistant_reply then
        some (assistant_reply, disk)
      else
        let memory := memory ++ [msgJson { role := roleAssistant, content := assistant_reply }]
        some (assistant_reply, save_memory disk session memory saveOut)

/-! ## Typed characterizations

Mirrors of the orchestrator's steps on `Message` transcripts, proved below to
agree with the raw model through the codec. -/

def renderMsg (m : Message) : String := pyCapitalize m.role ++ ": " ++ m.content

def renderAll (ms : List Message) : String :=
  String.intercalate lineSep (ms.map renderMsg)

/-- The text of the summary message created on a triggering turn: what
generation returns on the summarization prompt for the old prefix. -/
def summaryText (net : Net) (model : String) (mem : List Message) (mh : Nat) : String :=
  generate_text net (summaryPre ++ renderAll (pyDropLast mh mem) ++ summaryPost) model

/-- The in-memory transcript after the summarization step. -/
def collapse (net : Net) (model : String) (mem : List Message) (mh st : Nat) :
    List Message :=
  if mem.length > st then
    { role := roleSystem, content := summaryText net model mem mh } :: pyTakeLast mh mem
  else mem

/-- The context window sent to generation. -/
def contextMsgs (mem : List Message) (mh : Nat) (ap : String) : List Message :=
  if ap ≠ "" then { role := roleSystem, content := ap } :: pyTakeLast mh mem
  else pyTakeLast mh mem

/-- The reply the final generation call produces. -/
def replyOf (net : Net) (model : String) (mem : List Message) (mh : Nat)
    (ap : String) : String :=
  generate_text net (renderAll (contextMsgs mem mh ap) ++ assistantTag) model

/-! ## Concrete environments used to instantiate the theorems -/

/-- A working directory with no files. -/
def emptyDisk : Disk := fun _ => none

/-- An endpoint that is unreachable: every request raises a RequestException. -/
def netDown : Net := fun _ _ => NetResult.transportFail "down"

/-- An endpoint that answers every request with a 500. -/
def netHttp500 : Net := fun _ _ => NetResult.httpFail "500" "oops"

/-- An endpoint that replies successfully with the text `hi`. -/
def netHi : Net := fun _ _ => NetResult.ok (dumps (Json.obj [("response", Json.str "hi")]))

/-- An endpoint whose 2xx reply body is not JSON. -/
def netRawBody : Net := fun _ _ => NetResult.ok "not json"

/-- An endpoint where the summarization request fails at the transport level
but the final reply request succeeds. -/
def netSummaryFails : Net := fun p _ =>
  if pyStartsWith p summaryPre then NetResult.transportFail "conn refused"
  else NetResult.ok (dumps (Json.obj [("response", Json.str "ok")]))

/-- An endpoint whose 2xx reply body is valid JSON but not an object. -/
def netArrBody : Net := fun _ _ => NetResult.ok (dumps (Json.arr []))

/-- A two-message transcript. -/
def msgsAB : List Message := [Message.mk "user" "a", Message.mk "user" "b"]

/-- A directory holding a one-message record for the default session. -/
def diskWithRecord : Disk := fun p =>
  if p = memFile "default" then some (dumps (encodeTranscript [Message.mk "user" "hi"]))
  else none

/-- A record that is a well-formed JSON list whose elements are not objects. -/
def badRecord : String := "[1, 2]"

/-- A directory whose record for the default session is `badRecord`. -/
def diskListOfInts : Disk := fun p =>
  if p = memFile "default" then some badRecord else none

/-! ## Codec lemmas -/

theorem skipWs_of_ws (c : Char) (h : isWsChar c = true) (cs : List Char) :
    skipWs (c :: cs) = skipWs cs := by
  simp [skipWs, h]

theorem skipWs_of_not_ws (c : Char) (h : isWsChar c = false) (cs : List Char) :
    skipWs (c :: cs) = c :: cs := by
  simp [skipWs, h]

theorem skipWs_replicate_space (k : Nat) (cs : List Char) :
    skipWs (List.replicate k ' ' ++ cs) = skipWs cs := by
  induction k with
  | zero => simp
  | succ n ih => simpa [List.replicate_succ, skipWs_of_ws (' ') (by decide)] using ih

theorem skipWs_indent (lvl : Nat) (cs : List Char) :
    skipWs (indentChars lvl ++ cs) = skipWs cs :=
  skipWs_replicate_space (2 * lvl) cs

theorem hexVal_hexDigitChar (m : Nat) (hm : m < 16) :
    hexVal (hexDigitChar m) = some m := by
  interval_cases m <;> decide

theorem parseStrBody_u (f a b : Nat) (ha : a < 16) (hb : b < 16) (tl : List Char) :
    parseStrBody (f + 1) ('\\' :: 'u' :: '0' :: '0' :: hexDigitChar a :: hexDigitChar b :: tl)
      = (parseStrBody f tl).map
          (fun p => (Char.ofNat (0 * 4096 + 0 * 256 + a * 16 + b) :: p.1, p.2)) := by
  have hstep : parseStrBody (f + 1)
      ('\\' :: 'u' :: '0' :: '0' :: hexDigitChar a :: hexDigitChar b :: tl)
      = match hexVal '0', hexVal '0', hexVal (hexDigitChar a), hexVal (hexDigitChar b) with
        | some x1, some x2, some x3, some x4 =>
          (parseStrBody f tl).map
            (fun p => (Char.ofNat (x1 * 4096 + x2 * 256 + x3 * 16 + x4) :: p.1, p.2))
        | _, _, _, _ => none := rfl
  rw [hstep, show hexVal '0' = some 0 from by decide, hexVal_hexDigitChar a ha,
    hexVal_hexDigitChar b hb]

theorem parseStrBody_esc (s : List Char) : ∀ (fuel : Nat) (rest : List Char),
    (escBody s).length + 1 ≤ fuel →
    parseStrBody fuel (escBody s ++ '"' :: rest) = some (s, rest) := by
  induction s with
  | nil =>
    intro fuel rest hf
    obtain ⟨f, rfl⟩ : ∃ f, fuel = f + 1 := ⟨fuel - 1, by omega⟩
    simp [escBody, parseStrBody]
  | cons c s ih =>
    intro fuel rest hf
    have hes : escBody (c :: s) = escCharJson c ++ escBody s := by
      simp [escBody]
    rw [hes] at hf ⊢
    by_cases h1 : c = '"'
    · subst h1
      rw [show escCharJson '"' = ['\\', '"'] from by decide] at hf ⊢
      obtain ⟨f, rfl⟩ : ∃ f, fuel = f + 1 := ⟨fuel - 1, by omega⟩
      simp only [List.cons_append, List.nil_append, List.length_cons] at hf ⊢
      have hstep : parseStrBody (f + 1) ('\\' :: '"' :: (escBody s ++ '"' :: rest))
          = (parseStrBody f (escBody s ++ '"' :: rest)).map
              (fun p => ('"' :: p.1, p.2)) := rfl
      rw [hstep, ih f rest (by omega)]
      rfl
    · by_cases h2 : c = '\\'
      · subst h2
        rw [show escCharJson '\\' = ['\\', '\\'] from by decide] at hf ⊢
        obtain ⟨f, rfl⟩ : ∃ f, fuel = f + 1 := ⟨fuel - 1, by omega⟩
        simp only [List.cons_append, List.nil_append, List.length_cons] at hf ⊢
        have hstep : parseStrBody (f + 1) ('\\' :: '\\' :: (escBody s ++ '"' :: rest))
            = (parseStrBody f (escBody s ++ '"' :: rest)).map
                (fun p => ('\\' :: p.1, p.2)) := rfl
        rw [hstep, ih f rest (by omega)]
        rfl
      · by_cases h3 : c = '\x08'
        · subst h3
          rw [show escCharJson '\x08' = ['\\', 'b'] from by decide] at hf ⊢
          obtain ⟨f, rfl⟩ : ∃ f, fuel = f + 1 := ⟨fuel - 1, by omega⟩
          simp only [List.cons_append, List.nil_append, List.length_cons] at hf ⊢
          have hstep : parseStrBody (f + 1) ('\\' :: 'b' :: (escBody s ++ '"' :: rest))
              = (parseStrBody f (escBody s ++ '"' :: rest)).map
                  (fun p => ('\x08' :: p.1, p.2)) := rfl
          rw [hstep, ih f rest (by omega)]
          rfl
        · by_cases h4 : c = '\x0c'
          · subst h4
            rw [show escCharJson '\x0c' = ['\\', 'f'] from by decide] at hf ⊢
            obtain ⟨f, rfl⟩ : ∃ f, fuel = f + 1 := ⟨fuel - 1, by omega⟩
            simp only [List.cons_append, List.nil_append, List.length_cons] at hf ⊢
            have hstep : parseStrBody (f + 1) ('\\' :: 'f' :: (escBody s ++ '"' :: rest))
                = (parseStrBody f (escBody s ++ '"' :: rest)).map
                    (fun p => ('\x0c' :: p.1, p.2)) := rfl
            rw [hstep, ih f rest (by omega)]
            rfl
          · by_cases h5 : c = '\n'
            · subst h5
              rw [show escCharJson '\n' = ['\\', 'n'] from by decide] at hf ⊢
              obtain ⟨f, rfl⟩ : ∃ f, fuel = f + 1 := ⟨fuel - 1, by omega⟩
              simp only [List.cons_append, List.nil_append, List.length_cons] at hf ⊢
              have hstep : parseStrBody (f + 1) ('\\' :: 'n' :: (escBody s ++ '"' :: rest))
                  = (parseStrBody f (escBody s ++ '"' :: rest)).map
                      (fun p => ('\n' :: p.1, p.2)) := rfl
              rw [hstep, ih f rest (by omega)]
              rfl
            · by_cases h6 : c = '\r'
              · subst h6
                rw [show escCharJson '\r' = ['\\', 'r'] from by decide] at hf ⊢
                obtain ⟨f, rfl⟩ : ∃ f, fuel = f + 1 := ⟨fuel - 1, by omega⟩
                simp only [List.cons_append, List.nil_append, List.length_cons] at hf ⊢
                have hstep : parseStrBody (f + 1) ('\\' :: 'r' :: (escBody s ++ '"' :: rest))
                    = (parseStrBody f (escBody s ++ '"' :: rest)).map
                        (fun p => ('\r' :: p.1, p.2)) := rfl
                rw [hstep, ih f rest (by omega)]
                rfl
              · by_cases h7 : c = '\t'
                · subst h7
                  rw [show escCharJson '\t' = ['\\', 't'] from by decide] at hf ⊢
                  obtain ⟨f, rfl⟩ : ∃ f, fuel = f + 1 := ⟨fuel - 1, by omega⟩
                  simp only [List.cons_append, List.nil_append, List.length_cons] at hf ⊢
                  have hstep : parseStrBody (f + 1) ('\\' :: 't' :: (escBody s ++ '"' :: rest))
                      = (parseStrBody f (escBody s ++ '"' :: rest)).map
                          (fun p => ('\t' :: p.1, p.2)) := rfl
                  rw [hstep, ih f rest (by omega)]
                  rfl
                · by_cases h8 : c.toNat < 32
                  · rw [show escCharJson c =
                        ['\\', 'u', '0', '0', hexDigitChar (c.toNat / 16),
                          hexDigitChar (c.toNat % 16)] from by
                      simp [escCharJson, h1, h2, h3, h4, h5, h6, h7, h8]] at hf ⊢
                    obtain ⟨f, rfl⟩ : ∃ f, fuel = f + 1 := ⟨fuel - 1, by omega⟩
                    simp only [List.cons_append, List.nil_append, List.length_cons] at hf ⊢
                    rw [parseStrBody_u f (c.toNat / 16) (c.toNat % 16) (by omega) (by omega),
                      ih f rest (by omega)]
                    show some (Char.ofNat (0 * 4096 + 0 * 256 + c.toNat / 16 * 16 + c.toNat % 16)
                        :: s, rest) = _
                    rw [show 0 * 4096 + 0 * 256 + c.toNat / 16 * 16 + c.toNat % 16 = c.toNat
                        from by omega,
                      Char.ofNat_toNat]
                  · rw [show escCharJson c = [c] from by
                      simp [escCharJson, h1, h2, h3, h4, h5, h6, h7, h8]] at hf ⊢
                    obtain ⟨f, rfl⟩ : ∃ f, fuel = f + 1 := ⟨fuel - 1, by omega⟩
                    simp only [List.cons_append, List.nil_append, List.length_cons] at hf ⊢
                    rw [parseStrBody.eq_def]
                    simp only [if_neg h1, if_neg h2, if_neg h8]
                    rw [ih f rest (by omega)]
                    rfl

theorem skipWs_nl_indent (lvl : Nat) (c : Char) (hc : isWsChar c = false) (X : List Char) :
    skipWs ('\n' :: (indentChars lvl ++ c :: X)) = c :: X := by
  rw [skipWs_of_ws '\n' (by decide), skipWs_indent, skipWs_of_not_ws c hc]

theorem parseStrBody_esc_auto (s rest : List Char) :
    parseStrBody ((escBody s ++ '"' :: rest).length + 1) (escBody s ++ '"' :: rest)
      = some (s, rest) :=
  parseStrBody_esc s _ rest (by simp [List.length_append])

theorem parseVal_quote_sp (v : String) (f : Nat) (tl : List Char) :
    parseVal (f + 1) (' ' :: '"' :: (escBody v.data ++ '"' :: tl)) = some (.str v, tl) := by
  have hstep : parseVal (f + 1) (' ' :: '"' :: (escBody v.data ++ '"' :: tl))
      = (parseStrBody ((escBody v.data ++ '"' :: tl).length + 1) (escBody v.data ++ '"' :: tl)).map
          (fun p => (.str (String.mk p.1), p.2)) := rfl
  rw [hstep, parseStrBody_esc v.data _ tl (by simp [List.length_append])]
  rfl

theorem parseFields_last (k v : String) (lvlA lvlB f : Nat) (tl : List Char) (hf : 1 ≤ f) :
    parseFields (f + 1) ('\n' :: (indentChars lvlA ++ '"' :: (escBody k.data ++
      '"' :: ':' :: ' ' :: '"' :: (escBody v.data ++
      '"' :: '\n' :: (indentChars lvlB ++ '}' :: tl)))))
      = some ([(k, .str v)], tl) := by
  obtain ⟨g, rfl⟩ : ∃ g, f = g + 1 := ⟨f - 1, by omega⟩
  rw [parseFields]
  rw [skipWs_nl_indent lvlA '"' (by decide)]
  simp only [parseStrBody_esc_auto, skipWs_of_not_ws ':' (by decide),
    parseVal_quote_sp v g ('\n' :: (indentChars lvlB ++ '}' :: tl)),
    skipWs_of_ws '\n' (by decide), skipWs_indent, skipWs_of_not_ws '}' (by decide)]

theorem parseFields_msg (r c : String) (lvl f : Nat) (tl : List Char) (hf : 1 ≤ f) :
    parseFields (f + 2) ('\n' :: (indentChars (lvl + 1) ++ '"' :: (escBody "role".data ++
      '"' :: ':' :: ' ' :: '"' :: (escBody r.data ++
      '"' :: ',' :: '\n' :: (indentChars (lvl + 1) ++ '"' :: (escBody "content".data ++
      '"' :: ':' :: ' ' :: '"' :: (escBody c.data ++
      '"' :: '\n' :: (indentChars lvl ++ '}' :: tl))))))))
      = some ([("role", .str r), ("content", .str c)], tl) := by
  rw [show f + 2 = f + 1 + 1 from rfl, parseFields]
  rw [skipWs_nl_indent (lvl + 1) '"' (by decide)]
  simp only [parseStrBody_esc_auto, skipWs_of_not_ws ':' (by decide),
    parseVal_quote_sp r f (',' :: '\n' :: (indentChars (lvl + 1) ++ '"' ::
      (escBody "content".data ++ '"' :: ':' :: ' ' :: '"' :: (escBody c.data ++
      '"' :: '\n' :: (indentChars lvl ++ '}' :: tl))))),
    skipWs_of_not_ws ',' (by decide),
    parseFields_last "content" c (lvl + 1) lvl f tl hf]
  rfl

/-- The dump of a message object, written out character for character. -/
theorem dump_msg_eq (m : Message) (lvl : Nat) :
    dumpChars lvl (msgJson m) = '{' :: '\n' :: (indentChars (lvl + 1) ++
      '"' :: (escBody "role".data ++
      '"' :: ':' :: ' ' :: '"' :: (escBody m.role.data ++
      '"' :: ',' :: '\n' :: (indentChars (lvl + 1) ++ '"' :: (escBody "content".data ++
      '"' :: ':' :: ' ' :: '"' :: (escBody m.content.data ++
      '"' :: '\n' :: (indentChars lvl ++ ['}']))))))) := by
  simp [msgJson, dumpChars, dumpField, dumpFieldTail]

theorem parseVal_msg (m : Message) (lvl f : Nat) (tl : List Char) (hf : 1 ≤ f) :
    parseVal (f + 3) (dumpChars lvl (msgJson m) ++ tl) = some (msgJson m, tl) := by
  rw [dump_msg_eq]
  simp only [List.cons_append, List.append_assoc, List.nil_append]
  rw [show f + 3 = f + 2 + 1 from rfl, parseVal]
  rw [skipWs_of_not_ws '{' (by decide)]
  simp only [skipWs_nl_indent (lvl + 1) '"' (by decide)]
  simp only [parseFields_msg m.role m.content lvl f tl hf]
  rfl

theorem parseVal_msg_ws (m : Message) (lvl2 lvl f : Nat) (tl : List Char) (hf : 1 ≤ f) :
    parseVal (f + 3) ('\n' :: (indentChars lvl2 ++ (dumpChars lvl (msgJson m) ++ tl)))
      = some (msgJson m, tl) := by
  rw [dump_msg_eq]
  simp only [List.cons_append, List.append_assoc, List.nil_append]
  rw [show f + 3 = f + 2 + 1 from rfl, parseVal]
  rw [skipWs_nl_indent lvl2 '{' (by decide)]
  simp only [skipWs_nl_indent (lvl + 1) '"' (by decide)]
  simp only [parseFields_msg m.role m.content lvl f tl hf]
  rfl

theorem parseElems_msgs (xs : List Message) : ∀ (x : Message) (lvl f : Nat) (tl : List Char),
    xs.length + 5 ≤ f →
    parseElems f ('\n' :: (indentChars (lvl + 1) ++ (dumpChars (lvl + 1) (msgJson x) ++
      (dumpTail (lvl + 1) (xs.map msgJson) ++ '\n' :: (indentChars lvl ++ ']' :: tl)))))
      = some ((x :: xs).map msgJson, tl) := by
  induction xs with
  | nil =>
    intro x lvl f tl hf
    obtain ⟨g, rfl⟩ : ∃ g, f = g + 4 := ⟨f - 4, by omega⟩
    simp only [List.map_nil, dumpTail, List.nil_append]
    rw [show g + 4 = g + 3 + 1 from rfl, parseElems]
    simp only [parseVal_msg_ws x (lvl + 1) (lvl + 1) g ('\n' :: (indentChars lvl ++ ']' :: tl))
      (by omega), skipWs_nl_indent lvl ']' (by decide)]
    simp
  | cons y ys ih =>
    intro x lvl f tl hf
    obtain ⟨g, rfl⟩ : ∃ g, f = g + 4 := ⟨f - 4, by omega⟩
    have hlen : ys.length + 5 ≤ g + 3 := by simp at hf; omega
    have hg : 1 ≤ g := by simp at hf; omega
    simp only [List.map_cons, dumpTail, List.cons_append, List.append_assoc, List.nil_append]
    rw [show g + 4 = g + 3 + 1 from rfl, parseElems]
    have hrec := ih y lvl (g + 3) tl hlen
    simp only [List.map_cons] at hrec
    simp only [parseVal_msg_ws x (lvl + 1) (lvl + 1) g _ hg,
      skipWs_of_not_ws ',' (by decide), hrec]
    rfl

/-- The dump of a non-empty array: opening bracket, first element at the next
indent level, then the comma-separated tail and the closing bracket. -/
theorem dump_arr_cons (lvl : Nat) (v : Json) (vs : List Json) :
    dumpChars lvl (.arr (v :: vs)) = '[' :: '\n' :: (indentChars (lvl + 1) ++
      dumpChars (lvl + 1) v ++ dumpTail (lvl + 1) vs ++ '\n' :: (indentChars lvl ++ [']'])) := by
  rw [dumpChars]

theorem parseVal_transcript (T : List Message) (f : Nat) (tl : List Char)
    (hT : T.length + 6 ≤ f) :
    parseVal f (dumpChars 0 (encodeTranscript T) ++ tl) = some (encodeTranscript T, tl) := by
  cases T with
  | nil =>
    obtain ⟨g, rfl⟩ : ∃ g, f = g + 1 := ⟨f - 1, by omega⟩
    show parseVal (g + 1) ('[' :: ']' :: tl) = some (.arr [], tl)
    rfl
  | cons x xs =>
    obtain ⟨g, rfl⟩ : ∃ g, f = g + 1 := ⟨f - 1, by omega⟩
    show parseVal (g + 1) (dumpChars 0 (.arr ((x :: xs).map msgJson)) ++ tl) = _
    simp only [List.map_cons]
    rw [dump_arr_cons]
    simp only [List.cons_append, List.append_assoc, List.nil_append]
    rw [parseVal]
    rw [skipWs_of_not_ws '[' (by decide)]
    obtain ⟨r0, hr0⟩ : ∃ r, dumpChars (0 + 1) (msgJson x) = '{' :: r :=
      ⟨_, dump_msg_eq x (0 + 1)⟩
    have hhead : skipWs ('\n' :: (indentChars (0 + 1) ++ (dumpChars (0 + 1) (msgJson x) ++
        (dumpTail (0 + 1) (xs.map msgJson) ++ '\n' :: (indentChars 0 ++ ']' :: tl)))))
        = '{' :: (r0 ++ (dumpTail (0 + 1) (xs.map msgJson) ++ '\n' ::
          (indentChars 0 ++ ']' :: tl))) := by
      rw [hr0]
      simp only [List.cons_append]
      rw [skipWs_nl_indent (0 + 1) '{' (by decide)]
    have helems := parseElems_msgs xs x 0 g tl (by simp at hT; omega)
    simp only [List.map_cons] at helems
    simp only [hhead, helems]
    rfl
theorem dump_msg_len (m : Message) (lvl : Nat) : 8 ≤ (dumpChars lvl (msgJson m)).length := by
  rw [dump_msg_eq]
  simp [List.length_append, indentChars]
  omega

theorem dumpTail_msgs_len (lvl : Nat) (xs : List Message) :
    xs.length ≤ (dumpTail lvl (xs.map msgJson)).length := by
  induction xs with
  | nil => simp [dumpTail]
  | cons y ys ih =>
    simp only [List.map_cons, dumpTail, List.length_cons, List.length_append]
    omega

/-- Round trip of the codec on transcripts: parsing back what `json.dump`
wrote recovers exactly the dumped value. -/
theorem jsonParse_dumps (T : List Message) :
    jsonParse (dumps (encodeTranscript T)) = some (encodeTranscript T) := by
  cases T with
  | nil => rfl
  | cons x xs =>
    show (match parseVal ((dumps (encodeTranscript (x :: xs))).length + 1)
        (dumps (encodeTranscript (x :: xs))).data with
      | none => none
      | some (v, rest) => if skipWs rest = [] then some v else none)
      = some (encodeTranscript (x :: xs))
    have hdata : (dumps (encodeTranscript (x :: xs))).data
        = dumpChars 0 (encodeTranscript (x :: xs)) := rfl
    have hlen : (dumps (encodeTranscript (x :: xs))).length
        = (dumpChars 0 (encodeTranscript (x :: xs))).length := rfl
    have hb : (x :: xs).length + 6 ≤ (dumpChars 0 (encodeTranscript (x :: xs))).length + 1 := by
      have h1 := dump_msg_len x (0 + 1)
      have h2 := dumpTail_msgs_len (0 + 1) xs
      simp only [encodeTranscript, List.map_cons]
      rw [dump_arr_cons]
      simp only [List.length_cons, List.length_append, List.length_cons]
      omega
    have hp := parseVal_transcript (x :: xs) ((dumpChars 0 (encodeTranscript (x :: xs))).length + 1)
      [] hb
    rw [List.append_nil] at hp
    rw [hdata, hlen, hp]
    rfl

/-! ## Persistence lemmas -/

/-- A successful save followed by a load returns exactly what was saved. -/
theorem load_memory_save (disk : Disk) (session : String) (T : List Message) :
    load_memory (save_memory disk session (T.map msgJson) SaveOutcome.success) session
      = T.map msgJson := by
  show (match (if memFile session = memFile session
      then some (dumps (.arr (T.map msgJson))) else disk (memFile session)) with
    | none => ([] : List Json)
    | some text =>
      match jsonParse text with
      | none => []
      | some (.arr elems) => elems
      | some _ => []) = T.map msgJson
  rw [if_pos rfl]
  have hrt := jsonParse_dumps T
  rw [show (encodeTranscript T) = Json.arr (T.map msgJson) from rfl] at hrt
  show (match jsonParse (dumps (Json.arr (T.map msgJson))) with
    | none => ([] : List Json)
    | some (.arr elems) => elems
    | some _ => []) = T.map msgJson
  rw [hrt]

/-- Loading from a disk whose record for the session is the dump of a
transcript yields that transcript's message values. -/
theorem load_memory_of_record (disk : Disk) (session : String) (T : List Message)
    (h : disk (memFile session) = some (dumps (encodeTranscript T))) :
    load_memory disk session = T.map msgJson := by
  unfold load_memory
  rw [h]
  show (match jsonParse (dumps (encodeTranscript T)) with
    | none => ([] : List Json)
    | some (.arr elems) => elems
    | some _ => []) = T.map msgJson
  rw [jsonParse_dumps T]
  rfl

/-- Loading a session with no record yields the empty transcript. -/
theorem load_memory_none (disk : Disk) (session : String)
    (h : disk (memFile session) = none) :
    load_memory disk session = [] := by
  unfold load_memory
  rw [h]

theorem msgJson_injective : Function.Injective msgJson := by
  intro a b h
  cases a; cases b
  simpa [msgJson] using h

/-! ## Orchestrator lemmas -/

theorem formatLine_msgJson (m : Message) : formatLine (msgJson m) = some (renderMsg m) := rfl

theorem mapM_formatLine (ms : List Message) :
    (ms.map msgJson).mapM formatLine = some (ms.map renderMsg) := by
  induction ms with
  | nil => rfl
  | cons m ms ih =>
    rw [List.map_cons, List.map_cons, List.mapM_cons, formatLine_msgJson, ih]
    rfl

theorem pyTakeLast_map {α β : Type} (f : α → β) (k : Nat) (xs : List α) :
    pyTakeLast k (xs.map f) = (pyTakeLast k xs).map f := by
  by_cases hk : k = 0
  · simp [pyTakeLast, hk]
  · simp [pyTakeLast, hk, List.length_map, List.map_drop]

theorem pyDropLast_map {α β : Type} (f : α → β) (k : Nat) (xs : List α) :
    pyDropLast k (xs.map f) = (pyDropLast k xs).map f := by
  by_cases hk : k = 0
  · simp [pyDropLast, hk]
  · simp [pyDropLast, hk, List.length_map, List.map_take]

theorem pyTakeLast_length {α : Type} (k : Nat) (xs : List α) (hk : k ≠ 0) :
    (pyTakeLast k xs).length = min k xs.length := by
  simp [pyTakeLast, hk, List.length_drop]
  omega

/-- The summarization step on a transcript of well-formed messages never
raises and agrees with the typed `collapse`. -/
theorem summarize_step_typed (net : Net) (model : String) (mem : List Message) (mh st : Nat) :
    summarize_step net model (mem.map msgJson) mh st
      = some ((collapse net model mem mh st).map msgJson) := by
  unfold summarize_step collapse
  rw [List.length_map]
  by_cases h : mem.length > st
  · simp only [if_pos h, pyDropLast_map, mapM_formatLine, pyTakeLast_map, List.map_cons,
      summaryText, renderAll]
  · simp only [if_neg h]

/-- The context-assembly step on well-formed messages agrees with the typed
`contextMsgs`. -/
theorem context_step_typed (mem : List Message) (mh : Nat) (ap : String) :
    context_step (mem.map msgJson) mh ap = (contextMsgs mem mh ap).map msgJson := by
  by_cases hap : ap = ""
  · simp [context_step, contextMsgs, hap, pyTakeLast_map]
  · simp [context_step, contextMsgs, hap, pyTakeLast_map]

/-- Master characterization of a turn on a well-formed loaded transcript:
append the user message, collapse if over threshold, generate on the context,
and either return early (failure) or persist and return. -/
theorem chat_spec (net : Net) (saveOut : SaveOutcome) (disk : Disk)
    (ui session model ap : String) (mh st : Nat) (T : List Message)
    (hload : load_memory disk session = T.map msgJson) :
    chat_with_memory net saveOut disk ui session model mh st ap
      = (let mem2 := collapse net model (T ++ [Message.mk roleUser ui]) mh st
         let r := replyOf net model mem2 mh ap
         if r = "" ∨ isErrorReply r then some (r, disk)
         else some (r, save_memory disk session
           (mem2.map msgJson ++ [msgJson (Message.mk roleAssistant r)]) saveOut)) := by
  unfold chat_with_memory
  rw [hload]
  have happ : T.map msgJson ++ [msgJson (Message.mk roleUser ui)]
      = (T ++ [Message.mk roleUser ui]).map msgJson := by simp
  simp only [happ, summarize_step_typed, context_step_typed, mapM_formatLine, replyOf, renderAll]

/-! ## The claims -/

/-- C1: for every transcript and every config with `max_history ≥ 1`, the
summarization step fires iff the post-append transcript length is strictly
greater than `summary_threshold`; when it fires the in-memory transcript
becomes one synthetic system summary message followed by the last
`max_history` messages, of length exactly `1 + min max_history N`, and when it
does not fire the transcript is unchanged. -/
theorem claim1_summarization_trigger (net : Net) (model : String) (T : List Message)
    (mh st : Nat) (hmh : 1 ≤ mh) :
    (st < T.length →
      summarize_step net model (T.map msgJson) mh st
        = some (msgJson (Message.mk roleSystem (summaryText net model T mh))
            :: pyTakeLast mh (T.map msgJson))
      ∧ (msgJson (Message.mk roleSystem (summaryText net model T mh))
            :: pyTakeLast mh (T.map msgJson)).length = 1 + min mh T.length)
    ∧ (T.length ≤ st →
      summarize_step net model (T.map msgJson) mh st = some (T.map msgJson)) := by
  constructor
  · intro h
    constructor
    · rw [summarize_step_typed]
      unfold collapse
      rw [if_pos h]
      simp [pyTakeLast_map]
    · rw [List.length_cons, pyTakeLast_length mh _ (by omega), List.length_map]
      omega
  · intro h
    rw [summarize_step_typed]
    unfold collapse
    rw [if_neg (by omega)]

theorem claim1_witness :
    (1 ≤ 1 ∧ 1 < msgsAB.length)
    ∧ summarize_step netDown "m" (msgsAB.map msgJson) 1 1
        = some (msgJson (Message.mk roleSystem (summaryText netDown "m" msgsAB 1))
            :: pyTakeLast 1 (msgsAB.map msgJson))
    ∧ (msgJson (Message.mk roleSystem (summaryText netDown "m" msgsAB 1))
          :: pyTakeLast 1 (msgsAB.map msgJson)).length = 1 + min 1 msgsAB.length :=
  ⟨⟨le_refl 1, by decide⟩,
    ((claim1_summarization_trigger netDown "m" msgsAB 1 1 (le_refl 1)).1 (by decide)).1,
    ((claim1_summarization_trigger netDown "m" msgsAB 1 1 (le_refl 1)).1 (by decide)).2⟩

/-- C2: whenever the final generation reply is empty or carries one of the
three error prefixes, the turn returns that reply unchanged and the directory
is untouched: no assistant message is appended and nothing is persisted. -/
theorem claim2_failed_reply_not_persisted (net : Net) (saveOut : SaveOutcome) (disk : Disk)
    (ui session model ap : String) (mh st : Nat) (T : List Message)
    (hload : load_memory disk session = T.map msgJson)
    (hfail : replyOf net model (collapse net model (T ++ [Message.mk roleUser ui]) mh st) mh ap
        = ""
      ∨ isErrorReply (replyOf net model
          (collapse net model (T ++ [Message.mk roleUser ui]) mh st) mh ap) = true) :
    chat_with_memory net saveOut disk ui session model mh st ap
      = some (replyOf net model (collapse net model (T ++ [Message.mk roleUser ui]) mh st) mh ap,
          disk) := by
  rw [chat_spec net saveOut disk ui session model ap mh st T hload]
  exact if_pos hfail

theorem claim2_witness :
    load_memory emptyDisk "default" = ([] : List Message).map msgJson
    ∧ isErrorReply (replyOf netHttp500 "m"
        (collapse netHttp500 "m" ([] ++ [Message.mk roleUser "hi"]) 5 20) 5 "") = true
    ∧ chat_with_memory netHttp500 SaveOutcome.success emptyDisk "hi" "default" "m" 5 20 ""
        = some (replyOf netHttp500 "m"
            (collapse netHttp500 "m" ([] ++ [Message.mk roleUser "hi"]) 5 20) 5 "", emptyDisk) :=
  ⟨rfl, by decide,
    claim2_failed_reply_not_persisted netHttp500 SaveOutcome.success emptyDisk "hi" "default"
      "m" "" 5 20 [] rfl (Or.inr (by decide))⟩

/-- C4, counterexample: a save that fails after opening does not leave the
prior on-disk record untouched — opening for write truncates it, so the
record changes even though the save failed with nothing written. -/
theorem claim4_counterexample :
    save_memory diskWithRecord "default" [] (SaveOutcome.writeFail 0) (memFile "default")
      ≠ diskWithRecord (memFile "default") := by
  decide

/-- C4, amended: the write is all-or-nothing only when opening itself fails;
a failure after opening leaves a (possibly empty) prefix of the new
serialization in place of the prior record.  Other files are never touched. -/
theorem claim4_amended_truncate_on_open (disk : Disk) (session : String) (mem : List Json) :
    (∀ k, save_memory disk session mem (SaveOutcome.writeFail k) (memFile session)
        = some ((dumps (Json.arr mem)).take k))
    ∧ save_memory disk session mem SaveOutcome.openFail = disk
    ∧ (∀ p, p ≠ memFile session → ∀ out, save_memory disk session mem out p = disk p) := by
  refine ⟨fun k => by simp [save_memory], rfl, fun p hp out => ?_⟩
  cases out <;> simp [save_memory, hp]

theorem claim4_amended_witness :
    ("other" ≠ memFile "default")
    ∧ save_memory emptyDisk "default" [] SaveOutcome.openFail = emptyDisk
    ∧ save_memory emptyDisk "default" [] (SaveOutcome.writeFail 0) (memFile "default")
        = some ((dumps (Json.arr [])).take 0)
    ∧ save_memory emptyDisk "default" [] SaveOutcome.success "other" = emptyDisk "other" :=
  ⟨by decide, (claim4_amended_truncate_on_open emptyDisk "default" []).2.1,
    (claim4_amended_truncate_on_open emptyDisk "default" []).1 0,
    (claim4_amended_truncate_on_open emptyDisk "default" []).2.2 "other" (by decide)
      SaveOutcome.success⟩

/-- C5: a load performed after a successful save returns exactly the saved
transcript, order and contents (including non-ASCII) preserved; the message
encoding is injective, so the returned record determines the transcript. -/
theorem claim5_roundtrip (disk : Disk) (session : String) (T : List Message) :
    load_memory (save_memory disk session (T.map msgJson) SaveOutcome.success) session
      = T.map msgJson
    ∧ (∀ T1 T2 : List Message, T1.map msgJson = T2.map msgJson → T1 = T2) :=
  ⟨load_memory_save disk session T,
    fun _ _ h => List.map_injective_iff.mpr msgJson_injective h⟩

theorem claim5_witness :
    load_memory (save_memory emptyDisk "s" ([Message.mk "user" "héllo ☃"].map msgJson)
        SaveOutcome.success) "s" = [Message.mk "user" "héllo ☃"].map msgJson
    ∧ [Message.mk "user" "héllo ☃"] = [Message.mk "user" "héllo ☃"] :=
  ⟨(claim5_roundtrip emptyDisk "s" [Message.mk "user" "héllo ☃"]).1,
    (claim5_roundtrip emptyDisk "s" [Message.mk "user" "héllo ☃"]).2
      [Message.mk "user" "héllo ☃"] [Message.mk "user" "héllo ☃"] rfl⟩

/-! Prefix facts about the classified error strings. -/

theorem isLeadOf_append (l r : List Char) : isLeadOf l (l ++ r) = true := by
  induction l with
  | nil => rfl
  | cons a as ih => simp [isLeadOf, ih]

theorem pyStartsWith_append (a b : String) : pyStartsWith (a ++ b) a = true := by
  unfold pyStartsWith
  rw [String.data_append]
  exact isLeadOf_append a.data b.data

theorem httpErrLeads (d b : String) :
    pyStartsWith ("HTTP Error: " ++ d ++ ", " ++ b) httpErrTag = true := by
  rw [show ("HTTP Error: " : String) = httpErrTag ++ " " from by decide,
    String.append_assoc, String.append_assoc, String.append_assoc]
  exact pyStartsWith_append httpErrTag _

theorem requestErrLeads (d : String) :
    pyStartsWith ("Request Error: " ++ d) requestErrTag = true := by
  rw [show ("Request Error: " : String) = requestErrTag ++ " " from by decide,
    String.append_assoc]
  exact pyStartsWith_append requestErrTag _

theorem unexpectedErrLeads (v : Json) :
    pyStartsWith ("Unexpected Error: " ++ attrErrDetail v) unexpectedErrTag = true := by
  rw [show ("Unexpected Error: " : String) = unexpectedErrTag ++ " " from by decide,
    String.append_assoc]
  exact pyStartsWith_append unexpectedErrTag _

/-- C3: the context sent to generation is the last `max_history` transcript
messages, prefixed by exactly one system message carrying `agent_prompt` when
it is non-empty and by nothing otherwise, with the stated count; and every
record a turn persists is the post-summarization transcript plus the assistant
reply — the agent-directive message is never part of it. -/
theorem claim3_context_assembly (net : Net) (saveOut : SaveOutcome) (disk : Disk)
    (ui session model : String) (T M : List Message) (mh st : Nat) (ap : String)
    (hmh : 1 ≤ mh) (hload : load_memory disk session = T.map msgJson) :
    context_step (M.map msgJson) mh ap
      = (if ap ≠ "" then [msgJson (Message.mk roleSystem ap)] else [])
        ++ pyTakeLast mh (M.map msgJson)
    ∧ (context_step (M.map msgJson) mh ap).length
        = min mh M.length + (if ap ≠ "" then 1 else 0)
    ∧ (∀ out, chat_with_memory net saveOut disk ui session model mh st ap = some out →
        out.2 = disk
        ∨ out.2 = save_memory disk session
            ((collapse net model (T ++ [Message.mk roleUser ui]) mh st).map msgJson
              ++ [msgJson (Message.mk roleAssistant out.1)]) saveOut) := by
  refine ⟨?_, ?_, ?_⟩
  · by_cases hap : ap = "" <;> simp [context_step, hap]
  · by_cases hap : ap = ""
    · simp [context_step, hap, pyTakeLast_length mh _ (by omega), List.length_map]
    · simp [context_step, hap, pyTakeLast_length mh _ (by omega), List.length_map]
  · intro out hout
    rw [chat_spec net saveOut disk ui session model ap mh st T hload] at hout
    by_cases hc : replyOf net model (collapse net model (T ++ [Message.mk roleUser ui]) mh st)
          mh ap = ""
        ∨ isErrorReply (replyOf net model
            (collapse net model (T ++ [Message.mk roleUser ui]) mh st) mh ap) = true
    · left
      simp only [if_pos hc] at hout
      rw [← Option.some.inj hout]
    · right
      simp only [if_neg hc] at hout
      rw [← Option.some.inj hout]

theorem claim3_witness :
    (1 ≤ 1 ∧ load_memory emptyDisk "default" = ([] : List Message).map msgJson)
    ∧ (context_step ([Message.mk "user" "x"].map msgJson) 1 "be brief"
        = (if ("be brief" : String) ≠ "" then [msgJson (Message.mk roleSystem "be brief")]
            else [])
          ++ pyTakeLast 1 ([Message.mk "user" "x"].map msgJson)
      ∧ (context_step ([Message.mk "user" "x"].map msgJson) 1 "be brief").length
          = min 1 [Message.mk "user" "x"].length
            + (if ("be brief" : String) ≠ "" then 1 else 0)
      ∧ (∀ out, chat_with_memory netHi SaveOutcome.success emptyDisk "q" "default" "m" 1 20
              "be brief" = some out →
          out.2 = emptyDisk
          ∨ out.2 = save_memory emptyDisk "default"
              ((collapse netHi "m" ([] ++ [Message.mk roleUser "q"]) 1 20).map msgJson
                ++ [msgJson (Message.mk roleAssistant out.1)]) SaveOutcome.success)) :=
  ⟨⟨le_refl 1, rfl⟩,
    claim3_context_assembly netHi SaveOutcome.success emptyDisk "q" "default" "m" []
      [Message.mk "user" "x"] 1 20 "be brief" (le_refl 1) rfl⟩

/-- C6, counterexample: a 2xx reply whose body is not JSON is classified as
`Request Error:` (the JSONDecodeError raised by `r.json()` is a
RequestException subclass in requests ≥ 2.27), not as `Unexpected Error:` as
the claim states. -/
theorem claim6_counterexample :
    jsonParse "not json" = none
    ∧ pyStartsWith (generate_text netRawBody "p" "m") unexpectedErrTag = false
    ∧ pyStartsWith (generate_text netRawBody "p" "m") requestErrTag = true :=
  ⟨rfl, by decide, by decide⟩

/-- C6, amended: `generate_text` returns the `response` field of a successful
object reply (empty string when the field is absent) and folds every failure
into a returned string: `HTTP Error:` for non-2xx responses, `Request Error:`
for transport failures and for unparseable reply bodies, and
`Unexpected Error:` for a body that parses to a non-object. -/
theorem claim6_amended_error_classification (net : Net)
    (prompt model body detail : String) (fields : List (String × Json)) (s : String) :
    (net prompt model = NetResult.ok body → jsonParse body = some (Json.obj fields) →
      jLookup fields keyResponse = some (Json.str s) →
      generate_text net prompt model = s)
    ∧ (net prompt model = NetResult.ok body → jsonParse body = some (Json.obj fields) →
      jLookup fields keyResponse = none →
      generate_text net prompt model = "")
    ∧ (net prompt model = NetResult.httpFail detail body →
      generate_text net prompt model = "HTTP Error: " ++ detail ++ ", " ++ body
      ∧ pyStartsWith (generate_text net prompt model) httpErrTag = true)
    ∧ (net prompt model = NetResult.transportFail detail →
      generate_text net prompt model = "Request Error: " ++ detail
      ∧ pyStartsWith (generate_text net prompt model) requestErrTag = true)
    ∧ (net prompt model = NetResult.ok body → jsonParse body = none →
      pyStartsWith (generate_text net prompt model) requestErrTag = true)
    ∧ (∀ v : Json, net prompt model = NetResult.ok body → jsonParse body = some v →
      (∀ fs, v ≠ Json.obj fs) →
      pyStartsWith (generate_text net prompt model) unexpectedErrTag = true) := by
  refine ⟨?_, ?_, ?_, ?_, ?_, ?_⟩
  · intro h hp hr
    unfold generate_text
    simp only [h, hp, hr]
  · intro h hp hr
    unfold generate_text
    simp only [h, hp, hr]
  · intro h
    have he : generate_text net prompt model = "HTTP Error: " ++ detail ++ ", " ++ body := by
      unfold generate_text
      simp only [h]
    exact ⟨he, by rw [he]; exact httpErrLeads detail body⟩
  · intro h
    have he : generate_text net prompt model = "Request Error: " ++ detail := by
      unfold generate_text
      simp only [h]
    exact ⟨he, by rw [he]; exact requestErrLeads detail⟩
  · intro h hp
    have he : generate_text net prompt model = "Request Error: " ++ decodeErrDetail body := by
      unfold generate_text
      simp only [h, hp]
    rw [he]
    exact requestErrLeads _
  · intro v h hp hv
    unfold generate_text
    simp only [h, hp]
    cases v with
    | obj fs => exact absurd rfl (hv fs)
    | null => exact unexpectedErrLeads Json.null
    | bool b => exact unexpectedErrLeads (Json.bool b)
    | num n => exact unexpectedErrLeads (Json.num n)
    | str s2 => exact unexpectedErrLeads (Json.str s2)
    | arr xs => exact unexpectedErrLeads (Json.arr xs)

theorem claim6_witness :
    generate_text netHi "p" "m" = "hi"
    ∧ (generate_text netHttp500 "p" "m" = "HTTP Error: " ++ "500" ++ ", " ++ "oops"
      ∧ pyStartsWith (generate_text netHttp500 "p" "m") httpErrTag = true)
    ∧ (generate_text netDown "p" "m" = "Request Error: " ++ "down"
      ∧ pyStartsWith (generate_text netDown "p" "m") requestErrTag = true)
    ∧ pyStartsWith (generate_text netRawBody "p" "m") requestErrTag = true
    ∧ pyStartsWith (generate_text netArrBody "p" "m") unexpectedErrTag = true :=
  ⟨(claim6_amended_error_classification netHi "p" "m"
      (dumps (Json.obj [("response", Json.str "hi")])) "d"
      [("response", Json.str "hi")] "hi").1 rfl rfl rfl,
    (claim6_amended_error_classification netHttp500 "p" "m" "oops" "500" [] "s").2.2.1 rfl,
    (claim6_amended_error_classification netDown "p" "m" "b" "down" [] "s").2.2.2.1 rfl,
    ((claim6_amended_error_classification netRawBody "p" "m" "not json" "d" []
        "s").2.2.2.2.1 rfl rfl),
    ((claim6_amended_error_classification netArrBody "p" "m" (dumps (Json.arr []))
        "d" [] "s").2.2.2.2.2 (Json.arr []) rfl rfl (fun _ h => Json.noConfusion h))⟩

/-- C7: when the final reply succeeds, the turn returns it for every write
outcome — a failed save is absorbed (only printed) and the same reply is still
handed to the caller, with the attempted record determined by the outcome. -/
theorem claim7_write_failure_still_returns (net : Net) (saveOut : SaveOutcome) (disk : Disk)
    (ui session model ap : String) (mh st : Nat) (T : List Message)
    (hload : load_memory disk session = T.map msgJson)
    (hne : replyOf net model (collapse net model (T ++ [Message.mk roleUser ui]) mh st) mh ap
      ≠ "")
    (herr : isErrorReply (replyOf net model
      (collapse net model (T ++ [Message.mk roleUser ui]) mh st) mh ap) = false) :
    chat_with_memory net saveOut disk ui session model mh st ap
      = some (replyOf net model (collapse net model (T ++ [Message.mk roleUser ui]) mh st) mh ap,
          save_memory disk session
            ((collapse net model (T ++ [Message.mk roleUser ui]) mh st).map msgJson
              ++ [msgJson (Message.mk roleAssistant (replyOf net model
                  (collapse net model (T ++ [Message.mk roleUser ui]) mh st) mh ap))])
            saveOut) := by
  rw [chat_spec net saveOut disk ui session model ap mh st T hload]
  exact if_neg (by simp [hne, herr])

theorem claim7_witness :
    (replyOf netHi "m" (collapse netHi "m" ([] ++ [Message.mk roleUser "hello"]) 5 20) 5 "" ≠ ""
      ∧ isErrorReply (replyOf netHi "m"
          (collapse netHi "m" ([] ++ [Message.mk roleUser "hello"]) 5 20) 5 "") = false)
    ∧ chat_with_memory netHi (SaveOutcome.writeFail 0) emptyDisk "hello" "s1" "m" 5 20 ""
      = some (replyOf netHi "m" (collapse netHi "m" ([] ++ [Message.mk roleUser "hello"]) 5 20)
            5 "",
          save_memory emptyDisk "s1"
            ((collapse netHi "m" ([] ++ [Message.mk roleUser "hello"]) 5 20).map msgJson
              ++ [msgJson (Message.mk roleAssistant (replyOf netHi "m"
                  (collapse netHi "m" ([] ++ [Message.mk roleUser "hello"]) 5 20) 5 ""))])
            (SaveOutcome.writeFail 0)) :=
  ⟨⟨by decide, by decide⟩,
    claim7_write_failure_still_returns netHi (SaveOutcome.writeFail 0) emptyDisk "hello" "s1"
      "m" "" 5 20 [] rfl (by decide) (by decide)⟩

theorem pyTakeLast_cons_full {α : Type} (a : α) (xs : List α) (k : Nat)
    (hk : xs.length = k) (hk0 : k ≠ 0) :
    pyTakeLast k (a :: xs) = xs := by
  unfold pyTakeLast
  rw [if_neg hk0]
  simp only [List.length_cons, hk]
  rw [show k + 1 - k = 1 from by omega]
  simp

/-- C8: on a triggering turn with `summary_threshold ≥ max_history ≥ 1`, the
collapsed transcript has length `max_history + 1` and the context window takes
only its last `max_history` entries — exactly the retained recent messages,
with the fresh summary message excluded. -/
theorem claim8_summary_excluded_from_context (net : Net) (model : String) (T : List Message)
    (mh st : Nat) (ap : String) (hmh : 1 ≤ mh) (hst : mh ≤ st) (htrig : st < T.length) :
    summarize_step net model (T.map msgJson) mh st
      = some ((collapse net model T mh st).map msgJson)
    ∧ (collapse net model T mh st).length = mh + 1
    ∧ context_step ((collapse net model T mh st).map msgJson) mh ap
        = (if ap ≠ "" then [msgJson (Message.mk roleSystem ap)] else [])
          ++ (pyTakeLast mh T).map msgJson := by
  have hR : (pyTakeLast mh T).length = mh := by
    rw [pyTakeLast_length mh T (by omega)]
    omega
  have hcol : collapse net model T mh st
      = Message.mk roleSystem (summaryText net model T mh) :: pyTakeLast mh T := by
    unfold collapse
    rw [if_pos (by omega)]
  have htake : pyTakeLast mh (collapse net model T mh st) = pyTakeLast mh T := by
    rw [hcol]
    exact pyTakeLast_cons_full _ _ mh hR (by omega)
  refine ⟨summarize_step_typed net model T mh st, ?_, ?_⟩
  · rw [hcol, List.length_cons, hR]
  · rw [context_step_typed]
    unfold contextMsgs
    rw [htake]
    by_cases hap : ap = ""
    · simp [hap]
    · simp [hap]

theorem claim8_witness :
    (1 ≤ 1 ∧ 1 ≤ 1 ∧ 1 < msgsAB.length)
    ∧ (summarize_step netDown "m" (msgsAB.map msgJson) 1 1
        = some ((collapse netDown "m" msgsAB 1 1).map msgJson)
      ∧ (collapse netDown "m" msgsAB 1 1).length = 1 + 1
      ∧ context_step ((collapse netDown "m" msgsAB 1 1).map msgJson) 1 ""
          = (if ("" : String) ≠ "" then [msgJson (Message.mk roleSystem "")] else [])
            ++ (pyTakeLast 1 msgsAB).map msgJson) :=
  ⟨⟨le_refl 1, le_refl 1, by decide⟩,
    claim8_summary_excluded_from_context netDown "m" msgsAB 1 1 "" (le_refl 1) (le_refl 1)
      (by decide)⟩

/-- C9: the reply of the generation call made during summarization is not
checked: whatever string it is (including an error string or the empty
string), it becomes the content of the synthetic system message, and when the
final reply generation succeeds that content is written to the session's
on-disk record as part of the transcript. -/
theorem claim9_summary_error_persisted (net : Net) (disk : Disk)
    (ui session model ap : String) (mh st : Nat) (T : List Message)
    (hload : load_memory disk session = T.map msgJson)
    (htrig : st < (T ++ [Message.mk roleUser ui]).length)
    (hne : replyOf net model (collapse net model (T ++ [Message.mk roleUser ui]) mh st) mh ap
      ≠ "")
    (herr : isErrorReply (replyOf net model
      (collapse net model (T ++ [Message.mk roleUser ui]) mh st) mh ap) = false) :
    collapse net model (T ++ [Message.mk roleUser ui]) mh st
      = Message.mk roleSystem (summaryText net model (T ++ [Message.mk roleUser ui]) mh)
        :: pyTakeLast mh (T ++ [Message.mk roleUser ui])
    ∧ chat_with_memory net SaveOutcome.success disk ui session model mh st ap
      = some (replyOf net model (collapse net model (T ++ [Message.mk roleUser ui]) mh st) mh ap,
          save_memory disk session
            ((collapse net model (T ++ [Message.mk roleUser ui]) mh st).map msgJson
              ++ [msgJson (Message.mk roleAssistant (replyOf net model
                  (collapse net model (T ++ [Message.mk roleUser ui]) mh st) mh ap))])
            SaveOutcome.success)
    ∧ save_memory disk session
          ((collapse net model (T ++ [Message.mk roleUser ui]) mh st).map msgJson
            ++ [msgJson (Message.mk roleAssistant (replyOf net model
                (collapse net model (T ++ [Message.mk roleUser ui]) mh st) mh ap))])
          SaveOutcome.success (memFile session)
        = some (dumps (Json.arr
            ((collapse net model (T ++ [Message.mk roleUser ui]) mh st).map msgJson
              ++ [msgJson (Message.mk roleAssistant (replyOf net model
                  (collapse net model (T ++ [Message.mk roleUser ui]) mh st) mh ap))]))) := by
  refine ⟨?_, ?_, ?_⟩
  · unfold collapse
    rw [if_pos (by omega)]
  · rw [chat_spec net SaveOutcome.success disk ui session model ap mh st T hload]
    exact if_neg (by simp [hne, herr])
  · simp [save_memory]

theorem claim9_witness :
    (load_memory diskWithRecord "default" = [Message.mk "user" "hi"].map msgJson
      ∧ 1 < ([Message.mk "user" "hi"] ++ [Message.mk roleUser "b"]).length
      ∧ replyOf netSummaryFails "m" (collapse netSummaryFails "m"
          ([Message.mk "user" "hi"] ++ [Message.mk roleUser "b"]) 1 1) 1 "" ≠ ""
      ∧ isErrorReply (replyOf netSummaryFails "m" (collapse netSummaryFails "m"
          ([Message.mk "user" "hi"] ++ [Message.mk roleUser "b"]) 1 1) 1 "") = false)
    ∧ isErrorReply (summaryText netSummaryFails "m"
        ([Message.mk "user" "hi"] ++ [Message.mk roleUser "b"]) 1) = true
    ∧ (collapse netSummaryFails "m" ([Message.mk "user" "hi"] ++ [Message.mk roleUser "b"]) 1 1
        = Message.mk roleSystem (summaryText netSummaryFails "m"
            ([Message.mk "user" "hi"] ++ [Message.mk roleUser "b"]) 1)
          :: pyTakeLast 1 ([Message.mk "user" "hi"] ++ [Message.mk roleUser "b"])
      ∧ chat_with_memory netSummaryFails SaveOutcome.success diskWithRecord "b" "default" "m"
          1 1 ""
        = some (replyOf netSummaryFails "m" (collapse netSummaryFails "m"
              ([Message.mk "user" "hi"] ++ [Message.mk roleUser "b"]) 1 1) 1 "",
            save_memory diskWithRecord "default"
              ((collapse netSummaryFails "m"
                  ([Message.mk "user" "hi"] ++ [Message.mk roleUser "b"]) 1 1).map msgJson
                ++ [msgJson (Message.mk roleAssistant (replyOf netSummaryFails "m"
                    (collapse netSummaryFails "m"
                      ([Message.mk "user" "hi"] ++ [Message.mk roleUser "b"]) 1 1) 1 ""))])
              SaveOutcome.success)
      ∧ save_memory diskWithRecord "default"
            ((collapse netSummaryFails "m"
                ([Message.mk "user" "hi"] ++ [Message.mk roleUser "b"]) 1 1).map msgJson
              ++ [msgJson (Message.mk roleAssistant (replyOf netSummaryFails "m"
                  (collapse netSummaryFails "m"
                    ([Message.mk "user" "hi"] ++ [Message.mk roleUser "b"]) 1 1) 1 ""))])
            SaveOutcome.success (memFile "default")
          = some (dumps (Json.arr
              ((collapse netSummaryFails "m"
                  ([Message.mk "user" "hi"] ++ [Message.mk roleUser "b"]) 1 1).map msgJson
                ++ [msgJson (Message.mk roleAssistant (replyOf netSummaryFails "m"
                    (collapse netSummaryFails "m"
                      ([Message.mk "user" "hi"] ++ [Message.mk roleUser "b"]) 1 1) 1 ""))])))) :=
  ⟨⟨load_memory_of_record diskWithRecord "default" [Message.mk "user" "hi"] rfl,
      by decide, by decide, by decide⟩,
    by decide,
    claim9_summary_error_persisted netSummaryFails diskWithRecord "b" "default" "m" "" 1 1
      [Message.mk "user" "hi"]
      (load_memory_of_record diskWithRecord "default" [Message.mk "user" "hi"] rfl)
      (by decide) (by decide) (by decide)⟩

/-- C10: the loader checks only that the record parses to a list: a record
that is a JSON list of integers is returned unchanged, and the subsequent turn
crashes (modelled as `none`) when it renders such an element's role, for every
endpoint, write outcome, input and model — a turn is not total over loadable
records. -/
theorem claim10_load_unvalidated :
    load_memory diskListOfInts "default" = [Json.num 1, Json.num 2]
    ∧ ∀ (net : Net) (saveOut : SaveOutcome) (ui model : String),
      chat_with_memory net saveOut diskListOfInts ui "default" model 5 20 "" = none := by
  refine ⟨rfl, fun net saveOut ui model => ?_⟩
  rfl

end Recall